import Mathlib

/-!
Verification of the CRUD admin backend (FastAPI + Mongo document store).

The development shallowly embeds the two source files:
- `src/schemas.py`: pydantic models Client, Employee, Project, Task, Invoice,
  InvoiceItem (field declarations, defaults, closed enum literals, numeric
  bounds), embedded as lists of `FieldSpec` processed by `validateFields`.
- `src/main.py`: the serialization utility `serialize_doc`, the diagnostic
  endpoint `test_database`, and the create/list handlers per entity.

The file `database.py` (imported by `main.py` for `db`, `create_document`,
`get_documents`) is not part of the sources; those operations are modelled
from the specification's Document Store Adapter contract (section 4.2) and
are marked `Modelled from the spec:` in their doc comments.
-/

/-- Values stored in a document: the JSON scalars, Mongo ObjectId (carrying
its 24-hex-character string form), lists, and nested documents. -/
inductive Value where
  | null
  | vStr (s : String)
  | vNum (q : ℚ)
  | vBool (b : Bool)
  | vOid (s : String)
  | vList (xs : List Value)
  | vDoc (fields : List (String × Value))

/-- A document (Python dict / Mongo document): an insertion-ordered list of
key-value pairs; keys are unique in every document the system builds. -/
abbrev Doc := List (String × Value)

/-- Lookup of a key in a document (`doc[k]` / `k in doc`): the value of the
first pair carrying the key. -/
def Doc.get (d : Doc) (k : String) : Option Value :=
  (d.find? (fun kv => kv.1 == k)).map (fun kv => kv.2)

/-- Key removal (`doc.pop(k)`): drops the pairs carrying key `k`, keeping
the order of the others. -/
def Doc.erase (d : Doc) (k : String) : Doc :=
  d.filter (fun kv => kv.1 != k)

/-- Key assignment (`doc[k] = v`): replaces the value in place when the key
is present (keeping its position), otherwise appends the pair at the end,
as Python dict assignment does. -/
def Doc.set (d : Doc) (k : String) (v : Value) : Doc :=
  if d.any (fun kv => kv.1 == k) then
    d.map (fun kv => if kv.1 == k then (k, v) else kv)
  else d ++ [(k, v)]

/-- Whether a value is of the store's native identifier type
(`isinstance(v, ObjectId)`). -/
def Value.isOid : Value → Bool
  | .vOid _ => true
  | _ => false

/-- Python `str()` restricted to the embedded values. It is exact on the
identifier and scalar values the serializer applies it to; the renderings of
containers are abbreviated (no verified statement evaluates those cases). -/
def pyStr : Value → String
  | .null => "None"
  | .vStr s => s
  | .vNum q => toString q
  | .vBool b => if b then "True" else "False"
  | .vOid s => s
  | .vList _ => "<list>"
  | .vDoc _ => "<dict>"

/-- The rewriting the serializer's loop applies to each top-level value:
an ObjectId is rendered as its string form, anything else passes through. -/
def oidFix (v : Value) : Value :=
  if v.isOid then .vStr (pyStr v) else v

/-- Body of `serialize_doc` (main.py lines 26-33) on a truthy dict: copy,
pop `_id` and re-insert its string form under `id` when present, then
rewrite every remaining top-level ObjectId value to its string form. -/
def serializeCore (doc : Doc) : Doc :=
  let d1 := match Doc.get doc "_id" with
    | some v => (doc.erase "_id").set "id" (.vStr (pyStr v))
    | none => doc
  d1.map (fun kv => (kv.1, oidFix kv.2))

/-- The serializer `serialize_doc` applied to a dict argument: a falsy
(empty) dict is returned as is, otherwise the core rewriting runs on a copy. -/
def serializeDocD (doc : Doc) : Doc :=
  if doc.isEmpty then doc else serializeCore doc

/-- The serializer `serialize_doc` (main.py lines 23-33) including the
`None` argument: `if not doc: return doc` returns falsy inputs unchanged. -/
def serialize_doc : Option Doc → Option Doc
  | none => none
  | some doc => some (serializeDocD doc)

/-- Heap of dict objects for the object-identity model of `serialize_doc`:
an address is an index, allocation appends. -/
structure Heap where
  objs : List Doc

/-- Object-identity model of `serialize_doc`: the argument is an address of
a dict on the heap. On a falsy dict the same address is returned and the
heap is untouched (`return doc`); otherwise `doc = dict(doc)` allocates a
fresh copy, all pops and assignments hit only that copy, and its address is
returned. The input object is never written. -/
def serializeDocImp (h : Heap) (a : Nat) : Heap × Nat :=
  let doc := (h.objs.getD a [])
  if doc.isEmpty then (h, a)
  else (⟨h.objs ++ [serializeCore doc]⟩, h.objs.length)

-- Basic lemmas about the Doc operations.

theorem Doc.get_nil (k : String) : Doc.get [] k = none := rfl

theorem Doc.get_cons (kv : String × Value) (d : Doc) (k : String) :
    Doc.get (kv :: d) k = if kv.1 == k then some kv.2 else Doc.get d k := by
  simp only [Doc.get, List.find?]
  cases h : (kv.1 == k) <;> simp [h]

theorem Doc.get_append_left (d₁ d₂ : Doc) (k : String) (v : Value)
    (h : Doc.get d₁ k = some v) : Doc.get (d₁ ++ d₂) k = some v := by
  induction d₁ with
  | nil => simp [Doc.get_nil] at h
  | cons kv t ih =>
    rw [List.cons_append, Doc.get_cons] at *
    by_cases hk : (kv.1 == k) = true
    · simpa [hk] using h
    · simp only [hk] at h ⊢
      simp only [Bool.false_eq_true, if_false] at *
      exact ih h

theorem Doc.get_append_right (d₁ d₂ : Doc) (k : String)
    (h : Doc.get d₁ k = none) : Doc.get (d₁ ++ d₂) k = Doc.get d₂ k := by
  induction d₁ with
  | nil => simp
  | cons kv t ih =>
    rw [Doc.get_cons] at h
    by_cases hk : (kv.1 == k) = true
    · simp [hk] at h
    · rw [List.cons_append, Doc.get_cons]
      simp only [hk, Bool.false_eq_true, if_false] at h ⊢
      exact ih h

theorem Doc.get_mapVal (f : Value → Value) (d : Doc) (k : String) :
    Doc.get (d.map (fun kv => (kv.1, f kv.2))) k = (Doc.get d k).map f := by
  induction d with
  | nil => rfl
  | cons kv t ih =>
    rw [List.map_cons, Doc.get_cons, Doc.get_cons]
    by_cases hk : (kv.1 == k) = true
    · simp [hk]
    · simp only [hk, Bool.false_eq_true, if_false]
      exact ih

theorem Doc.get_erase_self (d : Doc) (k : String) :
    Doc.get (Doc.erase d k) k = none := by
  induction d with
  | nil => rfl
  | cons kv t ih =>
    rw [Doc.erase, List.filter]
    by_cases hk : (kv.1 == k) = true
    · simp only [bne, hk, Bool.not_true]
      exact ih
    · simp only [bne, hk, Bool.not_false]
      rw [Doc.get_cons]
      simp only [hk, Bool.false_eq_true, if_false]
      exact ih

theorem Doc.get_erase_other (d : Doc) (k k' : String) (hne : k ≠ k') :
    Doc.get (Doc.erase d k) k' = Doc.get d k' := by
  induction d with
  | nil => rfl
  | cons kv t ih =>
    rw [Doc.erase, List.filter]
    by_cases hk : (kv.1 == k) = true
    · simp only [bne, hk, Bool.not_true]
      rw [Doc.get_cons]
      have : (kv.1 == k') = false := by
        rw [beq_eq_false_iff_ne]
        intro h
        have h1 : kv.1 = k := by simpa using hk
        exact hne (h1.symm.trans h)
      simp only [this, Bool.false_eq_true, if_false]
      exact ih
    · simp only [bne, hk, Bool.not_false]
      rw [Doc.get_cons, Doc.get_cons]
      by_cases hk' : (kv.1 == k') = true
      · simp [hk']
      · simp only [hk', Bool.false_eq_true, if_false]
        exact ih

theorem Doc.get_eq_none_iff (d : Doc) (k : String) :
    Doc.get d k = none ↔ d.any (fun kv => kv.1 == k) = false := by
  induction d with
  | nil => simp [Doc.get_nil]
  | cons kv t ih =>
    rw [Doc.get_cons, List.any_cons]
    by_cases hk : (kv.1 == k) = true
    · simp [hk]
    · simp only [hk, Bool.false_eq_true, if_false, Bool.false_or]
      exact ih

theorem Doc.get_mapUpdate_self (d : Doc) (k : String) (v : Value)
    (hany : d.any (fun kv => kv.1 == k) = true) :
    Doc.get (d.map (fun kv => if kv.1 == k then (k, v) else kv)) k = some v := by
  induction d with
  | nil => simp at hany
  | cons kv t ih =>
    rw [List.any_cons] at hany
    rw [List.map_cons]
    by_cases hk : (kv.1 == k) = true
    · simp only [hk, if_true]
      rw [Doc.get_cons]
      simp
    · simp only [hk, Bool.false_eq_true, Bool.false_or] at hany
      simp only [hk, Bool.false_eq_true, if_false]
      rw [Doc.get_cons]
      simp only [hk, Bool.false_eq_true, if_false]
      exact ih hany

theorem Doc.get_mapUpdate_other (d : Doc) (k k' : String) (v : Value)
    (hne : k ≠ k') :
    Doc.get (d.map (fun kv => if kv.1 == k then (k, v) else kv)) k'
      = Doc.get d k' := by
  induction d with
  | nil => rfl
  | cons kv t ih =>
    rw [List.map_cons]
    by_cases hk : (kv.1 == k) = true
    · simp only [hk, if_true]
      rw [Doc.get_cons, Doc.get_cons]
      have h1 : kv.1 = k := by simpa using hk
      have h2 : (k == k') = false := by simpa using hne
      simp only [h1, h2, Bool.false_eq_true, if_false]
      exact ih
    · simp only [hk, Bool.false_eq_true, if_false]
      rw [Doc.get_cons, Doc.get_cons]
      by_cases hk' : (kv.1 == k') = true
      · simp [hk']
      · simp only [hk', Bool.false_eq_true, if_false]
        exact ih

theorem Doc.get_set_self (d : Doc) (k : String) (v : Value) :
    Doc.get (Doc.set d k v) k = some v := by
  rw [Doc.set]
  by_cases hany : d.any (fun kv => kv.1 == k) = true
  · rw [if_pos hany]
    exact Doc.get_mapUpdate_self d k v hany
  · rw [if_neg hany]
    rw [Doc.get_append_right d [(k, v)] k
      ((Doc.get_eq_none_iff d k).2 (Bool.eq_false_iff.mpr hany))]
    rw [Doc.get_cons]
    simp

theorem Doc.get_set_other (d : Doc) (k k' : String) (v : Value) (hne : k ≠ k') :
    Doc.get (Doc.set d k v) k' = Doc.get d k' := by
  rw [Doc.set]
  by_cases hany : d.any (fun kv => kv.1 == k) = true
  · rw [if_pos hany]
    exact Doc.get_mapUpdate_other d k k' v hne
  · rw [if_neg hany]
    cases hget : Doc.get d k' with
    | some w => exact Doc.get_append_left d [(k, v)] k' w hget
    | none =>
      rw [Doc.get_append_right d [(k, v)] k' hget, Doc.get_cons]
      have h2 : (k == k') = false := by simpa using hne
      simp [h2, Doc.get_nil]

-- Lemmas about the serializer.

theorem serializeCore_of_id (doc : Doc) (v : Value)
    (h : Doc.get doc "_id" = some v) :
    serializeCore doc
      = ((doc.erase "_id").set "id" (.vStr (pyStr v))).map
          (fun kv => (kv.1, oidFix kv.2)) := by
  rw [serializeCore, h]

theorem serializeCore_of_no_id (doc : Doc)
    (h : Doc.get doc "_id" = none) :
    serializeCore doc = doc.map (fun kv => (kv.1, oidFix kv.2)) := by
  rw [serializeCore, h]

theorem serializeDocD_no_id (d : Doc) :
    Doc.get (serializeDocD d) "_id" = none := by
  rw [serializeDocD]
  by_cases hemp : d.isEmpty = true
  · rw [if_pos hemp]
    rw [List.isEmpty_iff.mp hemp]
    rfl
  · rw [if_neg hemp]
    cases hid : Doc.get d "_id" with
    | some v =>
      rw [serializeCore_of_id d v hid, Doc.get_mapVal]
      rw [Doc.get_set_other _ "id" "_id" _ (by decide),
        Doc.get_erase_self]
      rfl
    | none =>
      rw [serializeCore_of_no_id d hid, Doc.get_mapVal, hid]
      rfl

/-- Claim C3 (amended): `serialize_doc` removes the native `_id` field and
reinserts it under key `id` as its string form, renders every other
top-level field of ObjectId type as its string form, passes all remaining
top-level fields through unchanged, and never exposes `_id` in its output.
(The normalization is not recursive: identifiers nested inside container
values are left untouched, see the counterexample.) -/
theorem claim_C3_serialize_doc_top_level (d : Doc) (s : String)
    (hid : Doc.get d "_id" = some (Value.vOid s)) :
    Doc.get (serializeDocD d) "_id" = none ∧
    Doc.get (serializeDocD d) "id" = some (Value.vStr s) ∧
    (∀ k v, k ≠ "_id" → k ≠ "id" → Doc.get d k = some v →
      Doc.get (serializeDocD d) k = some (oidFix v)) ∧
    (∀ d' : Doc, Doc.get (serializeDocD d') "_id" = none) := by
  have hemp : d.isEmpty = false := by
    cases d with
    | nil => rw [Doc.get_nil] at hid; cases hid
    | cons kv t => rfl
  have hD : serializeDocD d = serializeCore d := by
    rw [serializeDocD, hemp]
    simp
  refine ⟨?_, ?_, ?_, fun d' => serializeDocD_no_id d'⟩
  · rw [hD, serializeCore_of_id d _ hid, Doc.get_mapVal,
      Doc.get_set_other _ "id" "_id" _ (by decide), Doc.get_erase_self]
    rfl
  · rw [hD, serializeCore_of_id d _ hid, Doc.get_mapVal, Doc.get_set_self]
    rfl
  · intro k v hk1 hk2 hget
    rw [hD, serializeCore_of_id d _ hid, Doc.get_mapVal,
      Doc.get_set_other _ "id" k _ (Ne.symm hk2),
      Doc.get_erase_other _ "_id" k (Ne.symm hk1), hget]
    rfl

/-- Claim C3 witness: the theorem applied to a concrete record with an
ObjectId `_id` and one ordinary field. -/
theorem claim_C3_witness :
    Doc.get [("_id", Value.vOid "a"), ("name", Value.vStr "x")] "_id"
      = some (Value.vOid "a") ∧
    (Doc.get (serializeDocD [("_id", Value.vOid "a"), ("name", Value.vStr "x")])
        "_id" = none ∧
      Doc.get (serializeDocD [("_id", Value.vOid "a"), ("name", Value.vStr "x")])
        "id" = some (Value.vStr "a") ∧
      (∀ k v, k ≠ "_id" → k ≠ "id" →
        Doc.get [("_id", Value.vOid "a"), ("name", Value.vStr "x")] k = some v →
        Doc.get (serializeDocD [("_id", Value.vOid "a"), ("name", Value.vStr "x")])
          k = some (oidFix v)) ∧
      (∀ d' : Doc, Doc.get (serializeDocD d') "_id" = none)) :=
  ⟨rfl, claim_C3_serialize_doc_top_level _ "a" rfl⟩

/-- Claim C3 counterexample: the claim's recursive-normalization conjunct
fails on the code. A record holding an ObjectId inside a list value keeps
that ObjectId as is; it is not rendered as its string form. -/
theorem claim_C3_counterexample :
    serializeDocD [("_id", Value.vOid "a"), ("refs", Value.vList [Value.vOid "b"])]
      = [("refs", Value.vList [Value.vOid "b"]), ("id", Value.vStr "a")] ∧
    Value.vList [Value.vOid "b"] ≠ Value.vList [Value.vStr "b"] := by
  constructor
  · rfl
  · simp

/-- Claim C10: on a falsy input (None, or the empty mapping) `serialize_doc`
returns the input unchanged and adds no `id` key. -/
theorem claim_C10_falsy_inputs :
    serialize_doc none = none ∧
    serialize_doc (some []) = some [] ∧
    serializeDocD [] = [] ∧
    Doc.get ([] : Doc) "id" = none :=
  ⟨rfl, rfl, rfl, rfl⟩

/-- Claim C7: `serialize_doc` never writes to its input object: every object
present on the heap before the call is unchanged after it, and on a truthy
(nonempty) record the returned mapping lives at a fresh address distinct
from the input's, holding the serialized content. The embedding is a pure
function, matching the source's absence of I/O. -/
theorem claim_C7_serialize_doc_pure (h : Heap) (a : Nat)
    (ha : a < h.objs.length) :
    (serializeDocImp h a).1.objs.take h.objs.length = h.objs ∧
    ((h.objs.getD a []).isEmpty = false →
      (serializeDocImp h a).2 = h.objs.length ∧
      (serializeDocImp h a).2 ≠ a ∧
      (serializeDocImp h a).1.objs.getD (serializeDocImp h a).2 []
        = serializeCore (h.objs.getD a [])) := by
  by_cases hemp : (h.objs.getD a []).isEmpty = true
  · have hres : serializeDocImp h a = (h, a) := by
      simp only [serializeDocImp]
      rw [if_pos hemp]
    rw [hres]
    exact ⟨List.take_length h.objs, fun hfalse => by rw [hemp] at hfalse; cases hfalse⟩
  · have hemp' : (h.objs.getD a []).isEmpty = false := Bool.eq_false_iff.mpr hemp
    have hres : serializeDocImp h a
        = (⟨h.objs ++ [serializeCore (h.objs.getD a [])]⟩, h.objs.length) := by
      simp only [serializeDocImp]
      rw [if_neg hemp]
    rw [hres]
    refine ⟨List.take_left h.objs _, fun _ => ⟨rfl, Ne.symm (Nat.ne_of_lt ha), ?_⟩⟩
    simp [List.getD_eq_getElem?_getD, List.getElem?_append_right]

/-- Claim C7 witness: the theorem applied to a one-object heap holding a
nonempty record. -/
theorem claim_C7_witness :
    0 < (Heap.mk [[("_id", Value.vOid "a")]]).objs.length ∧
    ((serializeDocImp ⟨[[("_id", Value.vOid "a")]]⟩ 0).1.objs.take
        (Heap.mk [[("_id", Value.vOid "a")]]).objs.length
      = (Heap.mk [[("_id", Value.vOid "a")]]).objs ∧
      (((Heap.mk [[("_id", Value.vOid "a")]]).objs.getD 0 []).isEmpty = false →
        (serializeDocImp ⟨[[("_id", Value.vOid "a")]]⟩ 0).2
          = (Heap.mk [[("_id", Value.vOid "a")]]).objs.length ∧
        (serializeDocImp ⟨[[("_id", Value.vOid "a")]]⟩ 0).2 ≠ 0 ∧
        (serializeDocImp ⟨[[("_id", Value.vOid "a")]]⟩ 0).1.objs.getD
            (serializeDocImp ⟨[[("_id", Value.vOid "a")]]⟩ 0).2 []
          = serializeCore ((Heap.mk [[("_id", Value.vOid "a")]]).objs.getD 0 []))) :=
  ⟨by decide, claim_C7_serialize_doc_pure ⟨[[("_id", Value.vOid "a")]]⟩ 0 (by decide)⟩

/-- Modelled from the spec: `database.py` is not among the sources. The
document store (section 4.2) holds, per collection name, the list of its
documents in natural (insertion) order, plus a counter from which fresh
identifiers are drawn. -/
structure Store where
  colls : String → List Doc
  nextId : Nat

/-- String form of the n-th store-generated ObjectId. -/
def oidString (n : Nat) : String := "oid" ++ toString n

/-- Modelled from the spec: `create_document` (section 4.2 insert) persists
the validated record as a new document of the named collection with a
store-assigned fresh identifier in field `_id`, and returns the
identifier's string form. -/
def create_document (st : Store) (coll : String) (d : Doc) : Store × String :=
  let oid := oidString st.nextId
  (⟨fun c => if c = coll then st.colls c ++ [("_id", Value.vOid oid) :: d]
             else st.colls c,
    st.nextId + 1⟩, oid)

/-- Equality test of a stored value against a filter value, as the store's
find applies it to the scalar (string-valued) filters the handlers build;
container values never appear in a filter. -/
def Value.eqScalar : Value → Value → Bool
  | .null, .null => true
  | .vStr a, .vStr b => a == b
  | .vNum a, .vNum b => a == b
  | .vBool a, .vBool b => a == b
  | .vOid a, .vOid b => a == b
  | _, _ => false

/-- Whether a document satisfies every key-value equality of a filter. -/
def matchesFilter (d : Doc) (filt : List (String × Value)) : Bool :=
  filt.all (fun kv => match Doc.get d kv.1 with
    | some v => v.eqScalar kv.2
    | none => false)

/-- Modelled from the spec: `get_documents` (section 4.2 fetch_all) returns
every record of the named collection in natural (insertion) order, keeping
those that equal the filter on every filtered field. -/
def get_documents (st : Store) (coll : String) (filt : List (String × Value)) :
    List Doc :=
  (st.colls coll).filter (fun d => matchesFilter d filt)

/-- GET /api/clients (main.py lines 86-89): fetch all, serialize each. -/
def list_clients (st : Store) : List Doc × Store :=
  ((get_documents st "client" []).map serializeDocD, st)

/-- GET /api/employees (main.py lines 97-100). -/
def list_employees (st : Store) : List Doc × Store :=
  ((get_documents st "employee" []).map serializeDocD, st)

/-- GET /api/projects (main.py lines 108-111). -/
def list_projects (st : Store) : List Doc × Store :=
  ((get_documents st "project" []).map serializeDocD, st)

/-- GET /api/tasks (main.py lines 119-123): the filter is applied only for
a truthy `project_id` (`{"project_id": project_id} if project_id else {}`),
so a missing parameter and the empty string both leave the filter empty. -/
def list_tasks (st : Store) (project_id : Option String) : List Doc × Store :=
  let filt := match project_id with
    | some s => if s = "" then [] else [("project_id", Value.vStr s)]
    | none => []
  ((get_documents st "task" filt).map serializeDocD, st)

/-- GET /api/invoices (main.py lines 131-139): each of `client_id` and
`project_id` contributes an equality to the filter only when truthy. -/
def list_invoices (st : Store) (client_id project_id : Option String) :
    List Doc × Store :=
  let filt₁ := match client_id with
    | some s => if s = "" then [] else [("client_id", Value.vStr s)]
    | none => []
  let filt := filt₁ ++ (match project_id with
    | some s => if s = "" then [] else [("project_id", Value.vStr s)]
    | none => [])
  ((get_documents st "invoice" filt).map serializeDocD, st)

/-- Boolean form of "field k of the document is the string s". -/
def hasFieldStr (d : Doc) (k s : String) : Bool :=
  match Doc.get d k with
  | some (.vStr t) => t == s
  | _ => false

theorem hasFieldStr_iff (d : Doc) (k s : String) :
    hasFieldStr d k s = true ↔ Doc.get d k = some (Value.vStr s) := by
  rw [hasFieldStr]
  cases hget : Doc.get d k with
  | none => simp
  | some v => cases v <;> simp

theorem matchesFilter_nil (d : Doc) : matchesFilter d [] = true := rfl

theorem get_documents_nil (st : Store) (coll : String) :
    get_documents st coll [] = st.colls coll := by
  rw [get_documents]
  exact List.filter_true (st.colls coll)

theorem matchesFilter_single (d : Doc) (k s : String) :
    matchesFilter d [(k, Value.vStr s)] = hasFieldStr d k s := by
  rw [matchesFilter, hasFieldStr, List.all_cons, List.all_nil, Bool.and_true]
  cases hget : Doc.get d k with
  | none => rfl
  | some v => cases v <;> rfl

theorem matchesFilter_pair (d : Doc) (k₁ s₁ k₂ s₂ : String) :
    matchesFilter d [(k₁, Value.vStr s₁), (k₂, Value.vStr s₂)]
      = (hasFieldStr d k₁ s₁ && hasFieldStr d k₂ s₂) := by
  rw [matchesFilter, List.all_cons, List.all_cons, List.all_nil, Bool.and_true]
  have h1 : ∀ k s, (match Doc.get d k with
      | some v => v.eqScalar (Value.vStr s)
      | none => false) = hasFieldStr d k s := by
    intro k s
    rw [hasFieldStr]
    cases hget : Doc.get d k with
    | none => rfl
    | some v => cases v <;> rfl
  rw [h1, h1]

/-- Claim C4 (amended): for every NON-EMPTY query value X,
GET /api/tasks?project_id=X returns exactly the created tasks whose
project_id field equals X, in creation order (the collection's natural
order), serialized; with no parameter supplied it returns all tasks.
(The empty string is a falsy query value: the handler then applies no
filter at all, see the counterexample and claim C9.) -/
theorem claim_C4_tasks_filter (st : Store) (X : String) (hX : X ≠ "") :
    (list_tasks st (some X)).1
      = ((st.colls "task").filter (fun d => hasFieldStr d "project_id" X)).map
          serializeDocD ∧
    (∀ d, hasFieldStr d "project_id" X = true
        ↔ Doc.get d "project_id" = some (Value.vStr X)) ∧
    (list_tasks st none).1 = (st.colls "task").map serializeDocD := by
  refine ⟨?_, fun d => hasFieldStr_iff d "project_id" X, ?_⟩
  · show (get_documents st "task"
        (if X = "" then [] else [("project_id", Value.vStr X)])).map serializeDocD
      = _
    rw [if_neg hX, get_documents]
    congr 1
    exact List.filter_congr (fun d _ => matchesFilter_single d "project_id" X)
  · show (get_documents st "task" []).map serializeDocD = _
    rw [get_documents_nil]

/-- Claim C4 witness: the theorem applied to a store holding one created
task with project_id "p1", queried with X = "p1". -/
theorem claim_C4_witness :
    "p1" ≠ "" ∧
    ((list_tasks ((create_document ⟨fun _ => [], 0⟩ "task"
          [("project_id", Value.vStr "p1"), ("title", Value.vStr "T")]).1)
        (some "p1")).1
      = (((create_document ⟨fun _ => [], 0⟩ "task"
          [("project_id", Value.vStr "p1"), ("title", Value.vStr "T")]).1.colls
            "task").filter (fun d => hasFieldStr d "project_id" "p1")).map
          serializeDocD ∧
    (∀ d, hasFieldStr d "project_id" "p1" = true
        ↔ Doc.get d "project_id" = some (Value.vStr "p1")) ∧
    (list_tasks ((create_document ⟨fun _ => [], 0⟩ "task"
          [("project_id", Value.vStr "p1"), ("title", Value.vStr "T")]).1)
        none).1
      = ((create_document ⟨fun _ => [], 0⟩ "task"
          [("project_id", Value.vStr "p1"), ("title", Value.vStr "T")]).1.colls
            "task").map serializeDocD) :=
  ⟨by decide, claim_C4_tasks_filter _ "p1" (by decide)⟩

/-- Claim C4 counterexample: the claim as stated fails at the query value
X = "". After creating one task with project_id "p1", the handler queried
with project_id = "" returns that task (the truthiness test drops the
filter), although its project_id differs from "" — not "exactly the subset
of created tasks whose project_id equals X". -/
theorem claim_C4_counterexample :
    (list_tasks ((create_document ⟨fun _ => [], 0⟩ "task"
          [("project_id", Value.vStr "p1"), ("title", Value.vStr "T")]).1)
        (some "")).1
      = [[("project_id", Value.vStr "p1"), ("title", Value.vStr "T"),
          ("id", Value.vStr "oid0")]] ∧
    Doc.get [("project_id", Value.vStr "p1"), ("title", Value.vStr "T"),
        ("id", Value.vStr "oid0")] "project_id" = some (Value.vStr "p1") ∧
    "p1" ≠ "" :=
  ⟨rfl, rfl, by decide⟩

/-- Claim C5 (amended): for NON-EMPTY query values A and B,
GET /api/invoices?client_id=A&project_id=B returns exactly the invoices
whose client_id equals A and whose project_id equals B (a conjunction of
the two equalities), and supplying only one non-empty parameter filters on
that field alone. (An empty-string parameter is falsy and contributes no
filter, see the counterexample and claim C9.) -/
theorem claim_C5_invoices_filter (st : Store) (A B : String)
    (hA : A ≠ "") (hB : B ≠ "") :
    (list_invoices st (some A) (some B)).1
      = ((st.colls "invoice").filter
          (fun d => hasFieldStr d "client_id" A && hasFieldStr d "project_id" B)).map
          serializeDocD ∧
    (list_invoices st (some A) none).1
      = ((st.colls "invoice").filter (fun d => hasFieldStr d "client_id" A)).map
          serializeDocD ∧
    (list_invoices st none (some B)).1
      = ((st.colls "invoice").filter (fun d => hasFieldStr d "project_id" B)).map
          serializeDocD ∧
    (∀ d k s, hasFieldStr d k s = true ↔ Doc.get d k = some (Value.vStr s)) := by
  refine ⟨?_, ?_, ?_, fun d k s => hasFieldStr_iff d k s⟩
  · show (get_documents st "invoice"
        ((if A = "" then [] else [("client_id", Value.vStr A)])
          ++ (if B = "" then [] else [("project_id", Value.vStr B)]))).map
          serializeDocD = _
    rw [if_neg hA, if_neg hB, get_documents]
    congr 1
    exact List.filter_congr
      (fun d _ => matchesFilter_pair d "client_id" A "project_id" B)
  · show (get_documents st "invoice"
        ((if A = "" then [] else [("client_id", Value.vStr A)]) ++ [])).map
          serializeDocD = _
    rw [if_neg hA, List.append_nil, get_documents]
    congr 1
    exact List.filter_congr (fun d _ => matchesFilter_single d "client_id" A)
  · show (get_documents st "invoice"
        ([] ++ (if B = "" then [] else [("project_id", Value.vStr B)]))).map
          serializeDocD = _
    rw [List.nil_append, if_neg hB, get_documents]
    congr 1
    exact List.filter_congr (fun d _ => matchesFilter_single d "project_id" B)

/-- Claim C5 witness: the theorem applied to a store holding one created
invoice, with A = "c1" and B = "x". -/
theorem claim_C5_witness :
    "c1" ≠ "" ∧ "x" ≠ "" ∧
    ((list_invoices ((create_document ⟨fun _ => [], 0⟩ "invoice"
          [("client_id", Value.vStr "c1"), ("project_id", Value.vStr "x")]).1)
        (some "c1") (some "x")).1
      = ((((create_document ⟨fun _ => [], 0⟩ "invoice"
          [("client_id", Value.vStr "c1"), ("project_id", Value.vStr "x")]).1.colls
            "invoice").filter
          (fun d => hasFieldStr d "client_id" "c1" && hasFieldStr d "project_id" "x")).map
          serializeDocD) ∧
    (list_invoices ((create_document ⟨fun _ => [], 0⟩ "invoice"
          [("client_id", Value.vStr "c1"), ("project_id", Value.vStr "x")]).1)
        (some "c1") none).1
      = ((((create_document ⟨fun _ => [], 0⟩ "invoice"
          [("client_id", Value.vStr "c1"), ("project_id", Value.vStr "x")]).1.colls
            "invoice").filter (fun d => hasFieldStr d "client_id" "c1")).map
          serializeDocD) ∧
    (list_invoices ((create_document ⟨fun _ => [], 0⟩ "invoice"
          [("client_id", Value.vStr "c1"), ("project_id", Value.vStr "x")]).1)
        none (some "x")).1
      = ((((create_document ⟨fun _ => [], 0⟩ "invoice"
          [("client_id", Value.vStr "c1"), ("project_id", Value.vStr "x")]).1.colls
            "invoice").filter (fun d => hasFieldStr d "project_id" "x")).map
          serializeDocD) ∧
    (∀ d k s, hasFieldStr d k s = true ↔ Doc.get d k = some (Value.vStr s))) :=
  ⟨by decide, by decide, claim_C5_invoices_filter _ "c1" "x" (by decide) (by decide)⟩

/-- Claim C5 counterexample: the claim as stated fails at A = "". After
creating one invoice with client_id "c1" and project_id "x", the query
client_id=""&project_id="x" returns that invoice (only the project_id
equality is applied), although its client_id differs from "". -/
theorem claim_C5_counterexample :
    (list_invoices ((create_document ⟨fun _ => [], 0⟩ "invoice"
          [("client_id", Value.vStr "c1"), ("project_id", Value.vStr "x")]).1)
        (some "") (some "x")).1
      = [[("client_id", Value.vStr "c1"), ("project_id", Value.vStr "x"),
          ("id", Value.vStr "oid0")]] ∧
    Doc.get [("client_id", Value.vStr "c1"), ("project_id", Value.vStr "x"),
        ("id", Value.vStr "oid0")] "client_id" = some (Value.vStr "c1") ∧
    "c1" ≠ "" :=
  ⟨rfl, rfl, by decide⟩

/-- Claim C8: two consecutive GET list calls with no intervening writes
return identical result sequences, for every entity's list endpoint and
every store state; a list call leaves the store unchanged. -/
theorem claim_C8_reads_idempotent (st : Store) (pid ca pb : Option String) :
    (list_clients st).2 = st ∧
    (list_clients ((list_clients st).2)).1 = (list_clients st).1 ∧
    (list_employees st).2 = st ∧
    (list_employees ((list_employees st).2)).1 = (list_employees st).1 ∧
    (list_projects st).2 = st ∧
    (list_projects ((list_projects st).2)).1 = (list_projects st).1 ∧
    (list_tasks st pid).2 = st ∧
    (list_tasks ((list_tasks st pid).2) pid).1 = (list_tasks st pid).1 ∧
    (list_invoices st ca pb).2 = st ∧
    (list_invoices ((list_invoices st ca pb).2) ca pb).1
      = (list_invoices st ca pb).1 :=
  ⟨rfl, rfl, rfl, rfl, rfl, rfl, rfl, rfl, rfl, rfl⟩

/-- Claim C9: an empty-string query parameter is falsy, so the handlers
apply no equality filter for it: GET /api/tasks?project_id= behaves exactly
like GET /api/tasks, and likewise for each invoice parameter; the task
endpoint then returns every task of the collection. -/
theorem claim_C9_empty_param_is_absent (st : Store) (pa pb : Option String) :
    list_tasks st (some "") = list_tasks st none ∧
    list_invoices st (some "") pb = list_invoices st none pb ∧
    list_invoices st pa (some "") = list_invoices st pa none ∧
    (list_tasks st (some "")).1 = (st.colls "task").map serializeDocD := by
  refine ⟨rfl, rfl, rfl, ?_⟩
  show (get_documents st "task" []).map serializeDocD = _
  rw [get_documents_nil]

/-- Handle to the configured database object: its optional `name` attribute
and the outcome of `list_collection_names()`, which either yields the names
or raises an exception carrying a message. -/
structure DbHandle where
  name : Option String
  listCollectionNames : Except String (List String)

/-- State seen by the diagnostic endpoint: the module-level `db` object
(`none` models `db is None`) and the presence of the DATABASE_URL and
DATABASE_NAME environment variables. -/
structure DbEnv where
  db : Option DbHandle
  urlSet : Bool
  nameSet : Bool

/-- GET /test (main.py lines 43-76): builds the diagnostic response dict by
successive key assignments; the enumeration of collection names is wrapped
in try/except and an exception is rendered inline into the `database` field,
its message truncated to the first 50 characters (`str(e)[:50]`), instead of
propagating. The final two assignments report the presence of the two
environment variables. -/
def test_database (env : DbEnv) : Doc :=
  let response : Doc :=
    [("backend", .vStr "✅ Running"),
     ("database", .vStr "❌ Not Available"),
     ("database_url", .null),
     ("database_name", .null),
     ("connection_status", .vStr "Not Connected"),
     ("collections", .vList [])]
  let response := match env.db with
    | some h =>
      let r := ((((response.set "database" (.vStr "✅ Available")).set
        "database_url" (.vStr "✅ Configured")).set
        "database_name" (.vStr (match h.name with
          | some nm => nm
          | none => "✅ Connected"))).set
        "connection_status" (.vStr "Connected"))
      match h.listCollectionNames with
      | .ok cols =>
        (r.set "collections" (.vList ((cols.take 10).map Value.vStr))).set
          "database" (.vStr "✅ Connected & Working")
      | .error e =>
        r.set "database" (.vStr ("⚠️  Connected but Error: " ++ e.take 50))
    | none => response.set "database" (.vStr "⚠️  Available but not initialized")
  (response.set "database_url"
      (.vStr (if env.urlSet then "✅ Set" else "❌ Not Set"))).set
    "database_name" (.vStr (if env.nameSet then "✅ Set" else "❌ Not Set"))

/-- Claim C6: the diagnostic endpoint is a total function of the store
state — it returns a response document for every state (connection absent,
connected, enumeration failing), with the backend banner and a `database`
status string always present; when enumerating collection names fails with
message e, the exception is rendered inline as "⚠️  Connected but Error: "
followed by at most the first 50 characters of e, never propagated. -/
theorem claim_C6_diagnostic_total (env : DbEnv) (nm : Option String)
    (e : String) (u n : Bool) :
    (∃ s, Doc.get (test_database env) "database" = some (Value.vStr s)) ∧
    Doc.get (test_database env) "backend" = some (Value.vStr "✅ Running") ∧
    Doc.get (test_database ⟨some ⟨nm, .error e⟩, u, n⟩) "database"
      = some (Value.vStr ("⚠️  Connected but Error: " ++ e.take 50)) ∧
    (e.take 50).length ≤ 50 := by
  obtain ⟨db, u', n'⟩ := env
  refine ⟨?_, ?_, ?_, ?_⟩
  · cases db with
    | none => exact ⟨_, rfl⟩
    | some h =>
      obtain ⟨nm', res⟩ := h
      cases res with
      | ok cols => exact ⟨_, rfl⟩
      | error e' => exact ⟨_, rfl⟩
  · cases db with
    | none => rfl
    | some h =>
      obtain ⟨nm', res⟩ := h
      cases res with
      | ok cols => rfl
      | error e' => rfl
  · rfl
  · rw [String.take_eq]
    exact List.length_take_le 50 e.data

/-- JSON value of an inbound request body. -/
inductive Json where
  | jNull
  | jStr (s : String)
  | jNum (q : ℚ)
  | jBool (b : Bool)
  | jArr (xs : List Json)
  | jObj (fields : List (String × Json))

/-- Lookup of a field in a JSON object payload. -/
def lookupJson (p : List (String × Json)) (k : String) : Option Json :=
  (p.find? (fun kv => kv.1 == k)).map (fun kv => kv.2)

/-- One pydantic field declaration: its name, whether it is required, the
default used when an optional field is absent, and the validation and
conversion applied to a supplied JSON value (`none` = ValidationError). -/
structure FieldSpec where
  name : String
  required : Bool
  defaultVal : Value
  check : Json → Option Value

/-- Validation of one declared field against the payload: a supplied value
must pass the field's check; an absent required field is an error; an
absent optional field yields its declared default. -/
def validateField (p : List (String × Json)) (spec : FieldSpec) :
    Option (String × Value) :=
  match lookupJson p spec.name with
  | some j => (spec.check j).map (fun v => (spec.name, v))
  | none => if spec.required then none else some (spec.name, spec.defaultVal)

/-- Validation of a whole payload against a model's field declarations,
producing the validated record (fields in declaration order) exactly when
every declared field validates; undeclared extra fields are ignored, as
pydantic does by default. -/
def validateFields (specs : List FieldSpec) (p : List (String × Json)) :
    Option Doc :=
  match specs with
  | [] => some []
  | spec :: rest =>
    match validateField p spec, validateFields rest p with
    | some kv, some d => some (kv :: d)
    | _, _ => none

/-- Check of a required `str` field: accepts exactly strings. -/
def checkStr : Json → Option Value
  | .jStr s => some (.vStr s)
  | _ => none

/-- Check of an `Optional[str]` field: null or a string. -/
def checkOptStr : Json → Option Value
  | .jNull => some .null
  | .jStr s => some (.vStr s)
  | _ => none

/-- Shape of an acceptable email address: models pydantic's `EmailStr`
(a library concern outside the sources) shallowly as a nonempty local
part and a nonempty domain containing a dot. -/
def isEmail (s : String) : Bool :=
  match s.splitOn "@" with
  | [lp, dom] => (!lp.isEmpty) && (!dom.isEmpty) && dom.contains '.'
  | _ => false

/-- Check of a required `EmailStr` field. -/
def checkEmail : Json → Option Value
  | .jStr s => if isEmail s then some (.vStr s) else none
  | _ => none

/-- Check of an `Optional[EmailStr]` field. -/
def checkOptEmail : Json → Option Value
  | .jNull => some .null
  | .jStr s => if isEmail s then some (.vStr s) else none
  | _ => none

/-- Check of a `Literal[...]` enum field: accepts exactly the listed
literal strings, no coercion. -/
def checkLiteral (allowed : List String) : Json → Option Value
  | .jStr s => if s ∈ allowed then some (.vStr s) else none
  | _ => none

/-- Check of a `bool` field. -/
def checkBool : Json → Option Value
  | .jBool b => some (.vBool b)
  | _ => none

/-- Check of an `Optional[float] = Field(None, ge=0)` field: null, or a
number at least 0. -/
def checkOptNonneg : Json → Option Value
  | .jNull => some .null
  | .jNum q => if 0 ≤ q then some (.vNum q) else none
  | _ => none

/-- Check of a required `float = Field(..., ge=0)` field, also used for
`discount` whose default is 0. -/
def checkNonneg : Json → Option Value
  | .jNum q => if 0 ≤ q then some (.vNum q) else none
  | _ => none

/-- Check of the `tax_rate` field (`ge=0, le=1`). -/
def checkRate01 : Json → Option Value
  | .jNum q => if 0 ≤ q ∧ q ≤ 1 then some (.vNum q) else none
  | _ => none

/-- Check of an `Optional[datetime]` field; the value is carried as its
string form, ISO parsing being a library concern outside the sources (no
claim exercises datetime validation). -/
def checkOptDatetime : Json → Option Value
  | .jNull => some .null
  | .jStr s => some (.vStr s)
  | _ => none

/-- Check of a `List[str]` field. -/
def checkStrList : Json → Option Value
  | .jArr xs => (xs.mapM (fun j => match j with
      | Json.jStr s => some (Value.vStr s)
      | _ => none)).map .vList
  | _ => none

/-- Field declarations of InvoiceItem (schemas.py lines 62-65). -/
def invoiceItemSpecs : List FieldSpec :=
  [⟨"description", true, .null, checkStr⟩,
   ⟨"quantity", true, .null, checkNonneg⟩,
   ⟨"unit_price", true, .null, checkNonneg⟩]

/-- Check of the `List[InvoiceItem]` field: a list of objects, each
validating against the line-item declarations. -/
def checkItems : Json → Option Value
  | .jArr xs => (xs.mapM (fun j => match j with
      | Json.jObj fields => (validateFields invoiceItemSpecs fields).map Value.vDoc
      | _ => none)).map .vList
  | _ => none

/-- Field declarations of Client (schemas.py lines 20-29). -/
def clientSpecs : List FieldSpec :=
  [⟨"name", true, .null, checkStr⟩,
   ⟨"contact_name", false, .null, checkOptStr⟩,
   ⟨"email", false, .null, checkOptEmail⟩,
   ⟨"phone", false, .null, checkOptStr⟩,
   ⟨"website", false, .null, checkOptStr⟩,
   ⟨"industry", false, .null, checkOptStr⟩,
   ⟨"notes", false, .null, checkOptStr⟩,
   ⟨"address", false, .null, checkOptStr⟩,
   ⟨"status", false, .vStr "active", checkLiteral ["lead", "active", "inactive"]⟩]

/-- Field declarations of Employee (schemas.py lines 31-38). -/
def employeeSpecs : List FieldSpec :=
  [⟨"name", true, .null, checkStr⟩,
   ⟨"email", true, .null, checkEmail⟩,
   ⟨"role", false, .vStr "other",
     checkLiteral ["producer", "editor", "designer", "pm", "finance", "other"]⟩,
   ⟨"rate_hour", false, .null, checkOptNonneg⟩,
   ⟨"skills", false, .vList [], checkStrList⟩,
   ⟨"availability", false, .vStr "available",
     checkLiteral ["available", "busy", "ooo"]⟩,
   ⟨"active", false, .vBool true, checkBool⟩]

/-- Field declarations of Project (schemas.py lines 40-49). -/
def projectSpecs : List FieldSpec :=
  [⟨"name", true, .null, checkStr⟩,
   ⟨"client_id", false, .null, checkOptStr⟩,
   ⟨"description", false, .null, checkOptStr⟩,
   ⟨"status", false, .vStr "planning",
     checkLiteral ["planning", "pre", "production", "post", "delivered", "archived"]⟩,
   ⟨"start_date", false, .null, checkOptDatetime⟩,
   ⟨"due_date", false, .null, checkOptDatetime⟩,
   ⟨"budget", false, .null, checkOptNonneg⟩,
   ⟨"tags", false, .vList [], checkStrList⟩,
   ⟨"members", false, .vList [], checkStrList⟩]

/-- Field declarations of Task (schemas.py lines 51-60). -/
def taskSpecs : List FieldSpec :=
  [⟨"project_id", true, .null, checkStr⟩,
   ⟨"title", true, .null, checkStr⟩,
   ⟨"description", false, .null, checkOptStr⟩,
   ⟨"assignee_id", false, .null, checkOptStr⟩,
   ⟨"status", false, .vStr "todo",
     checkLiteral ["todo", "in_progress", "review", "done"]⟩,
   ⟨"priority", false, .vStr "medium",
     checkLiteral ["low", "medium", "high", "urgent"]⟩,
   ⟨"due_date", false, .null, checkOptDatetime⟩,
   ⟨"estimate_hours", false, .null, checkOptNonneg⟩,
   ⟨"labels", false, .vList [], checkStrList⟩]

/-- Field declarations of Invoice (schemas.py lines 67-78). -/
def invoiceSpecs : List FieldSpec :=
  [⟨"client_id", true, .null, checkStr⟩,
   ⟨"project_id", false, .null, checkOptStr⟩,
   ⟨"number", false, .null, checkOptStr⟩,
   ⟨"issue_date", false, .null, checkOptDatetime⟩,
   ⟨"due_date", false, .null, checkOptDatetime⟩,
   ⟨"currency", false, .vStr "USD",
     checkLiteral ["USD", "EUR", "GBP", "CAD", "AUD", "INR"]⟩,
   ⟨"items", false, .vList [], checkItems⟩,
   ⟨"tax_rate", false, .vNum 0, checkRate01⟩,
   ⟨"discount", false, .vNum 0, checkNonneg⟩,
   ⟨"status", false, .vStr "draft",
     checkLiteral ["draft", "sent", "paid", "overdue", "void"]⟩,
   ⟨"notes", false, .null, checkOptStr⟩]

/-- The five entities of the Admin/Dashboard API. -/
inductive EntityKind where
  | client
  | employee
  | project
  | task
  | invoice

/-- Field declarations of an entity's pydantic model. -/
def entitySpecs : EntityKind → List FieldSpec
  | .client => clientSpecs
  | .employee => employeeSpecs
  | .project => projectSpecs
  | .task => taskSpecs
  | .invoice => invoiceSpecs

/-- Collection name of an entity (model name lowercased, schemas.py
docstring). -/
def collName : EntityKind → String
  | .client => "client"
  | .employee => "employee"
  | .project => "project"
  | .task => "task"
  | .invoice => "invoice"

/-- Response of a create endpoint: either the handler body ran after the
payload validated and answered `{"id": cid}`, or FastAPI rejected the
request with a 422 validation error before the handler body ran. -/
inductive CreateResp where
  | created (id : String)
  | validationError

/-- POST /api/clients (main.py lines 81-84): FastAPI validates the body
against Client; on success the handler inserts and answers the new id. -/
def create_client (st : Store) (p : List (String × Json)) : CreateResp × Store :=
  match validateFields clientSpecs p with
  | none => (.validationError, st)
  | some d => ((.created (create_document st "client" d).2),
      (create_document st "client" d).1)

/-- POST /api/employees (main.py lines 92-95). -/
def create_employee (st : Store) (p : List (String × Json)) :
    CreateResp × Store :=
  match validateFields employeeSpecs p with
  | none => (.validationError, st)
  | some d => ((.created (create_document st "employee" d).2),
      (create_document st "employee" d).1)

/-- POST /api/projects (main.py lines 103-106). -/
def create_project (st : Store) (p : List (String × Json)) :
    CreateResp × Store :=
  match validateFields projectSpecs p with
  | none => (.validationError, st)
  | some d => ((.created (create_document st "project" d).2),
      (create_document st "project" d).1)

/-- POST /api/tasks (main.py lines 114-117). -/
def create_task (st : Store) (p : List (String × Json)) : CreateResp × Store :=
  match validateFields taskSpecs p with
  | none => (.validationError, st)
  | some d => ((.created (create_document st "task" d).2),
      (create_document st "task" d).1)

/-- POST /api/invoices (main.py lines 126-129). -/
def create_invoice (st : Store) (p : List (String × Json)) :
    CreateResp × Store :=
  match validateFields invoiceSpecs p with
  | none => (.validationError, st)
  | some d => ((.created (create_document st "invoice" d).2),
      (create_document st "invoice" d).1)

/-- The create endpoint of an entity. -/
def create_endpoint : EntityKind → Store → List (String × Json) →
    CreateResp × Store
  | .client => create_client
  | .employee => create_employee
  | .project => create_project
  | .task => create_task
  | .invoice => create_invoice

/-- The list endpoint of an entity, called with no query parameters. -/
def list_all_endpoint : EntityKind → Store → List Doc × Store
  | .client => list_clients
  | .employee => list_employees
  | .project => list_projects
  | .task => fun st => list_tasks st none
  | .invoice => fun st => list_invoices st none none

/-- The declared default of a named field among a model's declarations. -/
def defaultOf (specs : List FieldSpec) (k : String) : Option Value :=
  (specs.find? (fun sp => sp.name == k)).map (fun sp => sp.defaultVal)

-- Lemmas about validation.

theorem validateField_name_eq (p : List (String × Json)) (spec : FieldSpec)
    (kv : String × Value) (h : validateField p spec = some kv) :
    kv.1 = spec.name := by
  rw [validateField] at h
  cases hl : lookupJson p spec.name with
  | none =>
    rw [hl] at h
    by_cases hr : spec.required = true
    · rw [if_pos hr] at h; cases h
    · rw [if_neg hr] at h
      rw [← Option.some.inj h]
  | some j =>
    rw [hl] at h
    rcases Option.map_eq_some'.mp h with ⟨v, _, hkv⟩
    rw [← hkv]

theorem validateFields_cons (spec : FieldSpec) (rest : List FieldSpec)
    (p : List (String × Json)) (d : Doc)
    (h : validateFields (spec :: rest) p = some d) :
    ∃ kv d', validateField p spec = some kv ∧
      validateFields rest p = some d' ∧ d = kv :: d' := by
  rw [validateFields] at h
  cases h1 : validateField p spec with
  | none => rw [h1] at h; cases h
  | some kv =>
    cases h2 : validateFields rest p with
    | none => rw [h1, h2] at h; cases h
    | some d' =>
      rw [h1, h2] at h
      exact ⟨kv, d', rfl, rfl, (Option.some.inj h).symm⟩

theorem validateFields_keys (specs : List FieldSpec)
    (p : List (String × Json)) (d : Doc)
    (h : validateFields specs p = some d) :
    d.map Prod.fst = specs.map FieldSpec.name := by
  induction specs generalizing d with
  | nil =>
    rw [validateFields] at h
    cases Option.some.inj h
    rfl
  | cons s0 rest ih =>
    obtain ⟨kv, d', h1, h2, rfl⟩ := validateFields_cons s0 rest p d h
    rw [List.map_cons, List.map_cons, validateField_name_eq p s0 kv h1, ih d' h2]

theorem validateFields_field_some (specs : List FieldSpec)
    (p : List (String × Json)) (d : Doc) (spec : FieldSpec)
    (hmem : spec ∈ specs) (h : validateFields specs p = some d) :
    ∃ kv, validateField p spec = some kv := by
  induction specs generalizing d with
  | nil => cases hmem
  | cons s0 rest ih =>
    obtain ⟨kv, d', h1, h2, rfl⟩ := validateFields_cons s0 rest p _ h
    rcases List.mem_cons.mp hmem with rfl | hmem'
    · exact ⟨kv, h1⟩
    · exact ih _ hmem' h2

theorem validateFields_get (specs : List FieldSpec)
    (p : List (String × Json)) (d : Doc) (spec : FieldSpec)
    (kv : String × Value)
    (hnd : (specs.map FieldSpec.name).Nodup)
    (hmem : spec ∈ specs)
    (h : validateFields specs p = some d)
    (hkv : validateField p spec = some kv) :
    Doc.get d spec.name = some kv.2 := by
  induction specs generalizing d with
  | nil => cases hmem
  | cons s0 rest ih =>
    obtain ⟨kv0, d', h1, h2, rfl⟩ := validateFields_cons s0 rest p _ h
    rw [List.map_cons, List.nodup_cons] at hnd
    rcases List.mem_cons.mp hmem with rfl | hmem'
    · have hk : kv0 = kv := Option.some.inj (h1.symm.trans hkv)
      subst hk
      have hname : kv0.1 = spec.name := validateField_name_eq p spec kv0 h1
      rw [Doc.get_cons]
      simp [hname]
    · rw [Doc.get_cons]
      have hname : kv0.1 = s0.name := validateField_name_eq p s0 kv0 h1
      have hne : (kv0.1 == spec.name) = false := by
        rw [hname, beq_eq_false_iff_ne]
        intro hcontra
        exact hnd.1 (hcontra ▸ List.mem_map_of_mem FieldSpec.name hmem')
      rw [hne]
      simp only [Bool.false_eq_true, if_false]
      exact ih _ hnd.2 hmem' h2

theorem validateFields_none (specs : List FieldSpec)
    (p : List (String × Json)) (spec : FieldSpec)
    (hmem : spec ∈ specs) (hf : validateField p spec = none) :
    validateFields specs p = none := by
  induction specs with
  | nil => cases hmem
  | cons s0 rest ih =>
    rcases List.mem_cons.mp hmem with rfl | hmem'
    · cases h2 : validateFields rest p <;> simp [validateFields, hf, h2]
    · cases h1 : validateField p s0 <;>
        simp [validateFields, h1, ih hmem']

theorem validateFields_not_oid (specs : List FieldSpec)
    (p : List (String × Json)) (d : Doc)
    (h : validateFields specs p = some d)
    (hspecs : ∀ spec ∈ specs, spec.defaultVal.isOid = false ∧
      ∀ j v, spec.check j = some v → v.isOid = false) :
    ∀ kv ∈ d, kv.2.isOid = false := by
  induction specs generalizing d with
  | nil =>
    rw [validateFields] at h
    cases Option.some.inj h
    intro kv hkv
    cases hkv
  | cons s0 rest ih =>
    obtain ⟨kv0, d', h1, h2, rfl⟩ := validateFields_cons s0 rest p _ h
    intro kv hkv
    rcases List.mem_cons.mp hkv with rfl | hkv'
    · have hs0 := hspecs s0 (List.mem_cons_self s0 rest)
      rw [validateField] at h1
      cases hl : lookupJson p s0.name with
      | none =>
        rw [hl] at h1
        by_cases hr : s0.required = true
        · rw [if_pos hr] at h1; cases h1
        · rw [if_neg hr] at h1
          cases Option.some.inj h1
          exact hs0.1
      | some j =>
        rw [hl] at h1
        rcases Option.map_eq_some'.mp h1 with ⟨v, hv, hkv0⟩
        rw [← hkv0]
        exact hs0.2 j v hv
    · exact ih _ h2 (fun sp hsp => hspecs sp (List.mem_cons_of_mem s0 hsp)) kv hkv'

theorem Doc.any_key_iff (d : Doc) (k : String) :
    d.any (fun kv => kv.1 == k) = true ↔ k ∈ d.map Prod.fst := by
  rw [List.any_eq_true]
  constructor
  · rintro ⟨kv, hkv, hbeq⟩
    exact (beq_iff_eq.mp hbeq) ▸ List.mem_map_of_mem Prod.fst hkv
  · intro hk
    rcases List.mem_map.mp hk with ⟨kv, hkv, hfst⟩
    exact ⟨kv, hkv, beq_iff_eq.mpr hfst⟩

theorem Doc.get_eq_none_of_not_mem (d : Doc) (k : String)
    (h : k ∉ d.map Prod.fst) : Doc.get d k = none := by
  refine (Doc.get_eq_none_iff d k).2 ?_
  cases hany : d.any (fun kv => kv.1 == k)
  · rfl
  · exact absurd ((Doc.any_key_iff d k).1 hany) h

theorem map_oidFix_eq_self (d : Doc) (h : ∀ kv ∈ d, kv.2.isOid = false) :
    d.map (fun kv => (kv.1, oidFix kv.2)) = d := by
  induction d with
  | nil => rfl
  | cons kv t ih =>
    rw [List.map_cons]
    have h1 : oidFix kv.2 = kv.2 := by
      rw [oidFix, h kv (List.mem_cons_self kv t)]
      simp
    rw [h1, ih (fun kv' hkv' => h kv' (List.mem_cons_of_mem kv hkv'))]

theorem Doc.erase_of_not_mem (d : Doc) (k : String)
    (h : k ∉ d.map Prod.fst) : Doc.erase d k = d := by
  induction d with
  | nil => rfl
  | cons kv t ih =>
    rw [List.map_cons] at h
    have h1 : k ≠ kv.1 := fun he => h (he ▸ List.mem_cons_self kv.1 _)
    have h2 : k ∉ t.map Prod.fst := fun hm => h (List.mem_cons_of_mem _ hm)
    have hpred : (kv.1 != k) = true := by
      have hbeq : (kv.1 == k) = false :=
        beq_eq_false_iff_ne.mpr (fun he => h1 he.symm)
      simp [bne, hbeq]
    rw [Doc.erase, List.filter_cons_of_pos (p := fun kv : String × Value => kv.1 != k) hpred]
    exact congrArg (kv :: ·) (ih h2)

theorem Doc.set_of_not_mem (d : Doc) (k : String) (v : Value)
    (h : k ∉ d.map Prod.fst) : Doc.set d k v = d ++ [(k, v)] := by
  rw [Doc.set, if_neg]
  intro hany
  exact h ((Doc.any_key_iff d k).1 hany)

theorem serialize_new_doc (d : Doc) (s : String)
    (hid : "_id" ∉ d.map Prod.fst) (hid2 : "id" ∉ d.map Prod.fst)
    (hoid : ∀ kv ∈ d, kv.2.isOid = false) :
    serializeDocD (("_id", Value.vOid s) :: d)
      = d ++ [("id", Value.vStr s)] := by
  have hD : serializeDocD (("_id", Value.vOid s) :: d)
      = serializeCore (("_id", Value.vOid s) :: d) := rfl
  have hget : Doc.get (("_id", Value.vOid s) :: d) "_id"
      = some (Value.vOid s) := by
    rw [Doc.get_cons]
    simp
  rw [hD, serializeCore_of_id _ _ hget]
  have he : Doc.erase (("_id", Value.vOid s) :: d) "_id" = d := by
    rw [Doc.erase,
      List.filter_cons_of_neg (p := fun kv : String × Value => kv.1 != "_id") (by simp)]
    exact Doc.erase_of_not_mem d "_id" hid
  rw [he, Doc.set_of_not_mem d "id" _ hid2, List.map_append,
    map_oidFix_eq_self d hoid]
  rfl

-- No check ever produces a value of the native identifier type.

theorem checkStr_not_oid (j : Json) (v : Value) (h : checkStr j = some v) :
    Value.isOid v = false := by
  cases j <;> simp [checkStr] at h <;> subst h <;> rfl

theorem checkOptStr_not_oid (j : Json) (v : Value)
    (h : checkOptStr j = some v) : Value.isOid v = false := by
  cases j <;> simp [checkOptStr] at h <;> subst h <;> rfl

theorem checkEmail_not_oid (j : Json) (v : Value)
    (h : checkEmail j = some v) : Value.isOid v = false := by
  cases j <;> simp [checkEmail] at h
  obtain ⟨_, h2⟩ := h
  subst h2
  rfl

theorem checkOptEmail_not_oid (j : Json) (v : Value)
    (h : checkOptEmail j = some v) : Value.isOid v = false := by
  cases j <;> simp [checkOptEmail] at h
  · subst h; rfl
  · obtain ⟨_, h2⟩ := h
    subst h2
    rfl

theorem checkLiteral_not_oid (allowed : List String) (j : Json) (v : Value)
    (h : checkLiteral allowed j = some v) : Value.isOid v = false := by
  cases j <;> simp [checkLiteral] at h
  obtain ⟨_, h2⟩ := h
  subst h2
  rfl

theorem checkBool_not_oid (j : Json) (v : Value) (h : checkBool j = some v) :
    Value.isOid v = false := by
  cases j <;> simp [checkBool] at h <;> subst h <;> rfl

theorem checkOptNonneg_not_oid (j : Json) (v : Value)
    (h : checkOptNonneg j = some v) : Value.isOid v = false := by
  cases j <;> simp [checkOptNonneg] at h
  · subst h; rfl
  · obtain ⟨_, h2⟩ := h
    subst h2
    rfl

theorem checkNonneg_not_oid (j : Json) (v : Value)
    (h : checkNonneg j = some v) : Value.isOid v = false := by
  cases j <;> simp [checkNonneg] at h
  obtain ⟨_, h2⟩ := h
  subst h2
  rfl

theorem checkRate01_not_oid (j : Json) (v : Value)
    (h : checkRate01 j = some v) : Value.isOid v = false := by
  cases j <;> simp [checkRate01] at h
  obtain ⟨_, h2⟩ := h
  subst h2
  rfl

theorem checkOptDatetime_not_oid (j : Json) (v : Value)
    (h : checkOptDatetime j = some v) : Value.isOid v = false := by
  cases j <;> simp [checkOptDatetime] at h <;> subst h <;> rfl

theorem checkStrList_not_oid (j : Json) (v : Value)
    (h : checkStrList j = some v) : Value.isOid v = false := by
  cases j <;> simp [checkStrList] at h
  obtain ⟨a, _, h2⟩ := h
  subst h2
  rfl

theorem checkItems_not_oid (j : Json) (v : Value)
    (h : checkItems j = some v) : Value.isOid v = false := by
  cases j <;> simp [checkItems] at h
  obtain ⟨a, _, h2⟩ := h
  subst h2
  rfl

theorem entitySpecs_not_oid (k : EntityKind) :
    ∀ spec ∈ entitySpecs k, spec.defaultVal.isOid = false ∧
      ∀ j v, spec.check j = some v → Value.isOid v = false := by
  intro spec hmem
  cases k <;>
    (simp only [entitySpecs, clientSpecs, employeeSpecs, projectSpecs,
        taskSpecs, invoiceSpecs] at hmem
     fin_cases hmem) <;>
    first
      | exact ⟨rfl, checkStr_not_oid⟩
      | exact ⟨rfl, checkOptStr_not_oid⟩
      | exact ⟨rfl, checkEmail_not_oid⟩
      | exact ⟨rfl, checkOptEmail_not_oid⟩
      | exact ⟨rfl, checkLiteral_not_oid _⟩
      | exact ⟨rfl, checkBool_not_oid⟩
      | exact ⟨rfl, checkOptNonneg_not_oid⟩
      | exact ⟨rfl, checkNonneg_not_oid⟩
      | exact ⟨rfl, checkRate01_not_oid⟩
      | exact ⟨rfl, checkOptDatetime_not_oid⟩
      | exact ⟨rfl, checkStrList_not_oid⟩
      | exact ⟨rfl, checkItems_not_oid⟩

theorem entitySpecs_names_nodup (k : EntityKind) :
    ((entitySpecs k).map FieldSpec.name).Nodup := by
  cases k <;> decide

theorem entitySpecs_no_reserved (k : EntityKind) :
    "_id" ∉ (entitySpecs k).map FieldSpec.name ∧
    "id" ∉ (entitySpecs k).map FieldSpec.name := by
  cases k <;> exact ⟨by decide, by decide⟩

theorem create_endpoint_eq (k : EntityKind) (st : Store)
    (p : List (String × Json)) :
    create_endpoint k st p
      = match validateFields (entitySpecs k) p with
        | none => (CreateResp.validationError, st)
        | some d =>
          ((CreateResp.created (create_document st (collName k) d).2),
            (create_document st (collName k) d).1) := by
  cases k <;> rfl

theorem list_all_endpoint_eq (k : EntityKind) (st : Store) :
    (list_all_endpoint k st).1 = (st.colls (collName k)).map serializeDocD := by
  cases k <;>
    simp [list_all_endpoint, list_clients, list_employees, list_projects,
      list_tasks, list_invoices, collName, get_documents_nil]

/-- Claim C1: for every payload that validates against an entity's model,
the POST handler answers `created` with the new id string, and the
subsequent unfiltered GET list contains a record whose `id` equals that
string, in which every submitted field carries its validated value and
every unprovided optional field its declared default; additionally the
declared defaults are the ones of schemas.py (Client.status "active",
Task.status "todo", Task.priority "medium", Invoice.currency "USD",
Invoice.tax_rate 0, Invoice.discount 0, and empty lists for the sequence
fields). -/
theorem claim_C1_create_then_list (k : EntityKind) (st : Store)
    (p : List (String × Json)) (d : Doc)
    (hval : validateFields (entitySpecs k) p = some d) :
    (∃ s : String,
      (create_endpoint k st p).1 = CreateResp.created s ∧
      ∃ doc, doc ∈ (list_all_endpoint k (create_endpoint k st p).2).1 ∧
        Doc.get doc "id" = some (Value.vStr s) ∧
        (∀ spec ∈ entitySpecs k, ∀ j, lookupJson p spec.name = some j →
          ∃ v, spec.check j = some v ∧ Doc.get doc spec.name = some v) ∧
        (∀ spec ∈ entitySpecs k, spec.required = false →
          lookupJson p spec.name = none →
          Doc.get doc spec.name = some spec.defaultVal)) ∧
    defaultOf clientSpecs "status" = some (Value.vStr "active") ∧
    defaultOf taskSpecs "status" = some (Value.vStr "todo") ∧
    defaultOf taskSpecs "priority" = some (Value.vStr "medium") ∧
    defaultOf invoiceSpecs "currency" = some (Value.vStr "USD") ∧
    defaultOf invoiceSpecs "tax_rate" = some (Value.vNum 0) ∧
    defaultOf invoiceSpecs "discount" = some (Value.vNum 0) ∧
    defaultOf employeeSpecs "skills" = some (Value.vList []) ∧
    defaultOf projectSpecs "tags" = some (Value.vList []) ∧
    defaultOf projectSpecs "members" = some (Value.vList []) ∧
    defaultOf taskSpecs "labels" = some (Value.vList []) ∧
    defaultOf invoiceSpecs "items" = some (Value.vList []) := by
  refine ⟨?_, rfl, rfl, rfl, rfl, rfl, rfl, rfl, rfl, rfl, rfl, rfl⟩
  have hce : create_endpoint k st p
      = ((CreateResp.created (create_document st (collName k) d).2),
          (create_document st (collName k) d).1) := by
    rw [create_endpoint_eq, hval]
  refine ⟨oidString st.nextId, ?_, ?_⟩
  · rw [hce]
    rfl
  · have hkeys : d.map Prod.fst = (entitySpecs k).map FieldSpec.name :=
      validateFields_keys _ p d hval
    have hid1 : "_id" ∉ d.map Prod.fst := by
      rw [hkeys]; exact (entitySpecs_no_reserved k).1
    have hid2 : "id" ∉ d.map Prod.fst := by
      rw [hkeys]; exact (entitySpecs_no_reserved k).2
    have hoid : ∀ kv ∈ d, kv.2.isOid = false :=
      validateFields_not_oid _ p d hval (entitySpecs_not_oid k)
    have hser : serializeDocD (("_id", Value.vOid (oidString st.nextId)) :: d)
        = d ++ [("id", Value.vStr (oidString st.nextId))] :=
      serialize_new_doc d _ hid1 hid2 hoid
    have hcolls : ((create_endpoint k st p).2).colls (collName k)
        = st.colls (collName k)
          ++ [("_id", Value.vOid (oidString st.nextId)) :: d] := by
      rw [hce]
      show (if collName k = collName k then _ else _) = _
      rw [if_pos rfl]
    refine ⟨d ++ [("id", Value.vStr (oidString st.nextId))], ?_, ?_, ?_, ?_⟩
    · rw [list_all_endpoint_eq, hcolls, List.map_append]
      refine List.mem_append_right _ ?_
      rw [← hser]
      simp
    · rw [Doc.get_append_right d _ "id"
        (Doc.get_eq_none_of_not_mem d "id" hid2), Doc.get_cons]
      simp
    · intro spec hmem j hlook
      obtain ⟨kv, hkv⟩ := validateFields_field_some _ p d spec hmem hval
      have hfield := hkv
      rw [validateField, hlook] at hfield
      rcases Option.map_eq_some'.mp hfield with ⟨v, hv, hkveq⟩
      have hget : Doc.get d spec.name = some kv.2 :=
        validateFields_get _ p d spec kv (entitySpecs_names_nodup k) hmem
          hval hkv
      exact ⟨v, hv, (Doc.get_append_left d _ spec.name kv.2 hget).trans
        (by rw [← hkveq])⟩
    · intro spec hmem hreq hlook
      have hkv : validateField p spec = some (spec.name, spec.defaultVal) := by
        rw [validateField, hlook,
          if_neg (by rw [hreq]; exact Bool.false_ne_true)]
      have hget : Doc.get d spec.name = some spec.defaultVal :=
        validateFields_get _ p d spec _ (entitySpecs_names_nodup k) hmem
          hval hkv
      exact Doc.get_append_left d _ spec.name _ hget

/-- Claim C2: a payload failing validation is answered with the 422-class
validation error and nothing is persisted (the store is unchanged); a
payload missing a required field fails validation, as does one whose value
fails its field's check; an enum value outside its closed literal set is
rejected, as are a negative value for a non-negative field (rate_hour,
quantity, unit_price, estimate_hours, budget, discount) and a tax_rate
outside [0, 1]. -/
theorem claim_C2_validation_rejects (k : EntityKind) (st : Store)
    (p : List (String × Json)) :
    (validateFields (entitySpecs k) p = none →
      create_endpoint k st p = (CreateResp.validationError, st)) ∧
    (∀ spec ∈ entitySpecs k, spec.required = true →
      lookupJson p spec.name = none →
      validateFields (entitySpecs k) p = none) ∧
    (∀ spec ∈ entitySpecs k, ∀ j, lookupJson p spec.name = some j →
      spec.check j = none → validateFields (entitySpecs k) p = none) ∧
    (∀ allowed s, s ∉ allowed → checkLiteral allowed (Json.jStr s) = none) ∧
    (∀ q : ℚ, q < 0 → checkNonneg (Json.jNum q) = none ∧
      checkOptNonneg (Json.jNum q) = none ∧
      checkRate01 (Json.jNum q) = none) ∧
    (∀ q : ℚ, 1 < q → checkRate01 (Json.jNum q) = none) := by
  refine ⟨?_, ?_, ?_, ?_, ?_, ?_⟩
  · intro hnone
    rw [create_endpoint_eq, hnone]
  · intro spec hmem hreq hlook
    refine validateFields_none _ p spec hmem ?_
    rw [validateField, hlook, if_pos hreq]
  · intro spec hmem j hlook hcheck
    refine validateFields_none _ p spec hmem ?_
    simp [validateField, hlook, hcheck]
  · intro allowed s hs
    simp [checkLiteral, hs]
  · intro q hq
    have h1 : ¬(0 ≤ q) := not_le.mpr hq
    exact ⟨by simp [checkNonneg, h1], by simp [checkOptNonneg, h1],
      by simp [checkRate01, h1]⟩
  · intro q hq
    have h1 : ¬(q ≤ 1) := not_le.mpr hq
    simp [checkRate01, h1]

/-- Claim C1 witness: the theorem applied to a Client payload supplying
only the required `name`, against the empty store. -/
theorem claim_C1_witness :
    validateFields (entitySpecs .client) [("name", Json.jStr "Acme")]
      = some [("name", Value.vStr "Acme"), ("contact_name", Value.null),
          ("email", Value.null), ("phone", Value.null),
          ("website", Value.null), ("industry", Value.null),
          ("notes", Value.null), ("address", Value.null),
          ("status", Value.vStr "active")] ∧
    ((∃ s : String,
      (create_endpoint .client ⟨fun _ => [], 0⟩
          [("name", Json.jStr "Acme")]).1 = CreateResp.created s ∧
      ∃ doc, doc ∈ (list_all_endpoint .client
          (create_endpoint .client ⟨fun _ => [], 0⟩
            [("name", Json.jStr "Acme")]).2).1 ∧
        Doc.get doc "id" = some (Value.vStr s) ∧
        (∀ spec ∈ entitySpecs .client, ∀ j,
          lookupJson [("name", Json.jStr "Acme")] spec.name = some j →
          ∃ v, spec.check j = some v ∧ Doc.get doc spec.name = some v) ∧
        (∀ spec ∈ entitySpecs .client, spec.required = false →
          lookupJson [("name", Json.jStr "Acme")] spec.name = none →
          Doc.get doc spec.name = some spec.defaultVal)) ∧
      defaultOf clientSpecs "status" = some (Value.vStr "active") ∧
      defaultOf taskSpecs "status" = some (Value.vStr "todo") ∧
      defaultOf taskSpecs "priority" = some (Value.vStr "medium") ∧
      defaultOf invoiceSpecs "currency" = some (Value.vStr "USD") ∧
      defaultOf invoiceSpecs "tax_rate" = some (Value.vNum 0) ∧
      defaultOf invoiceSpecs "discount" = some (Value.vNum 0) ∧
      defaultOf employeeSpecs "skills" = some (Value.vList []) ∧
      defaultOf projectSpecs "tags" = some (Value.vList []) ∧
      defaultOf projectSpecs "members" = some (Value.vList []) ∧
      defaultOf taskSpecs "labels" = some (Value.vList []) ∧
      defaultOf invoiceSpecs "items" = some (Value.vList [])) :=
  ⟨rfl, claim_C1_create_then_list .client ⟨fun _ => [], 0⟩
    [("name", Json.jStr "Acme")] _ rfl⟩

/-- Claim C2 witness: the theorem applied to an Employee payload missing
the required `email`, against the empty store: validation fails and the
store is unchanged. -/
theorem claim_C2_witness :
    validateFields (entitySpecs .employee) [("name", Json.jStr "Bob")]
      = none ∧
    create_endpoint .employee ⟨fun _ => [], 0⟩ [("name", Json.jStr "Bob")]
      = (CreateResp.validationError, ⟨fun _ => [], 0⟩) := by
  have h := claim_C2_validation_rejects .employee ⟨fun _ => [], 0⟩
    [("name", Json.jStr "Bob")]
  have hnone : validateFields (entitySpecs .employee)
      [("name", Json.jStr "Bob")] = none :=
    h.2.1 ⟨"email", true, Value.null, checkEmail⟩
      (List.mem_cons_of_mem _ (List.mem_cons_self _ _)) rfl rfl
  exact ⟨hnone, h.1 hnone⟩
